import Mathlib

/-!
Shallow embedding of the bikerly-api authentication and rate-limiting core.

Sources embedded:
- `app/services/authSecurity.py`: `hash_password`, `verify_password`,
  `create_access_token`, the token-decoding step of `get_current_user`.
- `app/routes/auth.py`: `register`, `login`.
- `app/utils/rate_limit.py`: `RateLimiter._cleanup_old_entries`,
  `RateLimiter.is_allowed`, `RateLimitMiddleware.dispatch`.
- `main.py`: the middleware registration with its `exempt_paths`.

Modelling conventions:
- Python `str` values that are inspected character-by-character (passwords,
  request paths) are `List Char`; opaque identifiers stay `String`.
- Wall-clock instants (`datetime.utcnow()`) are integers counting whole
  seconds; `timedelta` arithmetic is exact integer arithmetic, so the
  Python `int(...total_seconds())` conversion is the identity here.
- bcrypt is modelled as an ideal keyed digest: `hashpw` records the salt and
  the first 72 bytes of its input, `checkpw` compares the first 72 bytes of
  the candidate against the recorded bytes (bcrypt ignores bytes past 72).
- JWT signing is modelled as an ideal MAC: the tag is the pair of the secret
  and the signed payload, and decoding checks the tag and the expiry.
-/

namespace Bikerly

/-- Decidable equality of `Except` results, needed to evaluate the embedded
fallible operations on concrete inputs. -/
instance {ε α : Type} [DecidableEq ε] [DecidableEq α] : DecidableEq (Except ε α) := fun x y =>
  match x, y with
  | Except.ok a, Except.ok b =>
    if h : a = b then isTrue (congrArg Except.ok h)
    else isFalse (fun hc => h (Except.ok.inj hc))
  | Except.error e, Except.error f =>
    if h : e = f then isTrue (congrArg Except.error h)
    else isFalse (fun hc => h (Except.error.inj hc))
  | Except.ok _, Except.error _ => isFalse (fun hc => Except.noConfusion hc)
  | Except.error _, Except.ok _ => isFalse (fun hc => Except.noConfusion hc)

/-! ## Credential hasher (`authSecurity.hash_password` / `verify_password`) -/

/-- UTF-8 encoding of a single character (the byte sequence produced by
Python `str.encode("utf-8")` for that character). -/
def utf8Bytes (c : Char) : List Nat :=
  let n := c.toNat
  if n < 128 then [n]
  else if n < 2048 then [192 + n / 64, 128 + n % 64]
  else if n < 65536 then [224 + n / 4096, 128 + (n / 64) % 64, 128 + n % 64]
  else [240 + n / 262144, 128 + (n / 4096) % 64, 128 + (n / 64) % 64, 128 + n % 64]

/-- UTF-8 encoding of a whole string, as `password.encode("utf-8")`. -/
def utf8Encode : List Char → List Nat
  | [] => []
  | c :: cs => utf8Bytes c ++ utf8Encode cs

/-- Greedy character prefix whose UTF-8 encoding fits in `budget` bytes.
This is `raw_bytes[:budget].decode("utf-8", errors="ignore")`: cutting the
byte stream at `budget` leaves at most one trailing incomplete multi-byte
sequence, which `errors="ignore"` drops. -/
def truncToBudget : List Char → Nat → List Char
  | [], _ => []
  | c :: cs, budget =>
    if (utf8Bytes c).length ≤ budget then c :: truncToBudget cs (budget - (utf8Bytes c).length)
    else []

/-- Model of a bcrypt digest: the salt together with the (at most 72) input
bytes the digest commits to. An ideal collision-free hash is injective on
this data, so equality of the data models equality of digests. -/
structure BcryptDigest where
  salt : Nat
  key : List Nat
  deriving DecidableEq, Repr

/-- Model of `bcrypt.hashpw`: commits to the first 72 bytes of the input. -/
def bcryptHashpw (input : List Nat) (salt : Nat) : BcryptDigest :=
  ⟨salt, input.take 72⟩

/-- Model of `bcrypt.checkpw`: re-derives the digest from the first 72 bytes
of the candidate password and compares. -/
def bcryptCheckpw (input : List Nat) (d : BcryptDigest) : Bool :=
  decide (input.take 72 = d.key)

/-- `authSecurity.hash_password`. Empty passwords raise `ValueError`
(modelled as `Except.error`); inputs longer than 72 UTF-8 bytes are cut to
72 bytes and re-decoded with `errors="ignore"` before hashing. `salt` stands
for the fresh salt drawn by `bcrypt.gensalt(rounds=12)`. -/
def hash_password (password : List Char) (salt : Nat) : Except String BcryptDigest :=
  if password = [] then Except.error "Password cannot be empty"
  else
    let raw := utf8Encode password
    let effective := if 72 < raw.length then utf8Encode (truncToBudget password 72) else raw
    Except.ok (bcryptHashpw effective salt)

/-- `authSecurity.verify_password`: checks the plain password against the
stored digest with `bcrypt.checkpw` (no pre-truncation on this side). -/
def verify_password (plain_password : List Char) (hashed_password : BcryptDigest) : Bool :=
  bcryptCheckpw (utf8Encode plain_password) hashed_password

/-! ## Token issuer / verifier (`authSecurity.create_access_token`,
decoding step of `authSecurity.get_current_user`) -/

/-- The claim dictionary passed to `create_access_token`; each entry may be
absent (`data.get` returns `None`). -/
structure JwtClaims where
  sub : Option String
  role : Option String
  uuid : Option String
  deriving DecidableEq, Repr

/-- A decoded JWT payload: the claims plus the absolute expiry instant
(seconds, as `jose` serialises `exp`). -/
structure JwtPayload where
  claims : JwtClaims
  exp : ℤ
  deriving DecidableEq, Repr

/-- A signed token. The signature of an ideal MAC is determined by (and only
forgeable from) the secret and the payload, so it is modelled as that pair. -/
structure Jwt where
  payload : JwtPayload
  sig : String × JwtPayload
  deriving DecidableEq, Repr

/-- `jwt.encode(payload, secret, algorithm)`. -/
def signToken (secret : String) (p : JwtPayload) : Jwt :=
  ⟨p, (secret, p)⟩

/-- `authSecurity.create_access_token`: copies the claim dict, adds
`exp = utcnow + timedelta(minutes=expireMinutes)` and signs.
`expireMinutes` models `ACCESS_TOKEN_EXPIRE_MINUTES` (default 60). -/
def create_access_token (data : JwtClaims) (now : ℤ) (expireMinutes : ℤ) (secret : String) : Jwt :=
  signToken secret ⟨data, now + expireMinutes * 60⟩

/-- `jwt.decode(token, secret, algorithms)`: checks the signature and, when
valid, rejects the token iff its expiry lies strictly in the past
(`jose` raises `ExpiredSignatureError` when `exp < now`). -/
def jwtDecode (t : Jwt) (secret : String) (now : ℤ) : Option JwtPayload :=
  if t.sig = (secret, t.payload) ∧ ¬ t.payload.exp < now then some t.payload else none

/-- The caller-visible data of an `AuthenticationError`. -/
structure AuthenticationError where
  message : String
  detail : String
  deriving DecidableEq, Repr

/-- The token-decoding step of `get_current_user` (lines 113-127 of
`authSecurity.py`): decode the JWT, read `payload.get("sub")`, and raise
`AuthenticationError` when decoding fails or the subject is `None`. -/
def tokenDecodeStep (t : Jwt) (secret : String) (now : ℤ) : Except AuthenticationError String :=
  match jwtDecode t secret now with
  | none => Except.error ⟨"Could not validate credentials", "Invalid or expired token"⟩
  | some payload =>
    match payload.claims.sub with
    | none => Except.error ⟨"Could not validate credentials", "Invalid token format"⟩
    | some email => Except.ok email

/-! ## Auth routes (`routes/auth.py`) -/

/-- The persisted user fields read by the auth flows. -/
structure DbUser where
  email : String
  hashed_password : BcryptDigest
  is_active : Bool
  is_verified : Bool
  role : String
  uuid : String
  deriving DecidableEq, Repr

/-- `User.find_one(User.email == email)` over the users collection, modelled
as the first matching record of the stored list. -/
def findOne (db : List DbUser) (email : String) : Option DbUser :=
  db.find? (fun u => u.email == email)

/-- `routes/auth.login` after the rate-limit dependency admitted the call:
look up by email, verify the password, check the active flag, then mint the
token with claims `{sub, role, uuid}`. -/
def login (db : List DbUser) (email : String) (password : List Char)
    (now expireMinutes : ℤ) (secret : String) : Except AuthenticationError Jwt :=
  match findOne db email with
  | none => Except.error ⟨"Incorrect email or password", "Invalid credentials provided"⟩
  | some user =>
    if verify_password password user.hashed_password then
      if user.is_active then
        Except.ok (create_access_token ⟨some user.email, some user.role, some user.uuid⟩
          now expireMinutes secret)
      else Except.error ⟨"Account is inactive",
        "Your account has been deactivated. Please contact support."⟩
    else Except.error ⟨"Incorrect email or password", "Invalid credentials provided"⟩

/-- The registration payload fields used by `routes/auth.register`. -/
structure UserCreate where
  email : String
  password : List Char
  deriving DecidableEq, Repr

/-- Errors surfaced by `routes/auth.register`. -/
inductive RegisterError where
  | conflict (message detail : String)
  | validation (message detail : String)
  deriving DecidableEq, Repr

/-- `routes/auth.register` after the rate-limit dependency admitted the
call: duplicate-email check, password hashing (a `ValueError` becomes a
`ValidationError`), then insertion of the new record with default role
"rider", active, unverified. Returns the outcome together with the
resulting users collection. `uuid` models the freshly generated UUID and
`salt` the fresh bcrypt salt. -/
def register (db : List DbUser) (inp : UserCreate) (uuid : String) (salt : Nat) :
    Except RegisterError DbUser × List DbUser :=
  match findOne db inp.email with
  | some _ =>
    (Except.error (RegisterError.conflict "User with this email already exists"
      "A user with this email address is already registered"), db)
  | none =>
    match hash_password inp.password salt with
    | Except.error _ =>
      (Except.error (RegisterError.validation "Password processing failed"
        "Password is too long. Maximum 72 bytes allowed."), db)
    | Except.ok hp =>
      let user : DbUser := ⟨inp.email, hp, true, false, "rider", uuid⟩
      (Except.ok user, db ++ [user])

/-! ## Rate limiter (`utils/rate_limit.py`) -/

/-- The mutable state of a `RateLimiter`: the per-identifier timestamp lists
(`defaultdict(list)`, so an absent key reads as `[]` and deleting a key is
observationally setting it to `[]`) and the instant of the last global
cleanup. -/
structure RateLimiterState where
  requests : String → List ℤ
  lastCleanup : ℤ

/-- `RateLimiter._cleanup_old_entries`: a no-op within 5 minutes (300 s) of
the previous cleanup; otherwise drops, for every identifier, all timestamps
at least one hour (3600 s) old, then records `now` as the last cleanup. -/
def cleanupOldEntries (s : RateLimiterState) (now : ℤ) : RateLimiterState :=
  if now - s.lastCleanup < 300 then s
  else
    { requests := fun k => (s.requests k).filter (fun ts => decide (now - 3600 < ts)),
      lastCleanup := now }

/-- The list `is_allowed` stores back into `self._requests[identifier]`
before counting: the identifier's timestamps after the periodic cleanup,
pruned to those strictly inside the window (`ts > now - window_seconds`). -/
def retainedRequests (s : RateLimiterState) (identifier : String)
    (windowSeconds now : ℤ) : List ℤ :=
  ((cleanupOldEntries s now).requests identifier).filter
    (fun ts => decide (now - windowSeconds < ts))

/-- `RateLimiter.is_allowed`: run the periodic cleanup, prune the
identifier's timestamps to the window, store the pruned list, then either
reject (count at or above `maxRequests`) with
`retry_after = max 1 (oldest + window - now)` (falling back to the window
length when no timestamp is retained) or admit and append `now`.
Returns `(allowed, retry_after, post-state)`. -/
def isAllowed (s : RateLimiterState) (identifier : String)
    (maxRequests windowSeconds now : ℤ) : Bool × ℤ × RateLimiterState :=
  if maxRequests ≤ ((retainedRequests s identifier windowSeconds now).length : ℤ) then
    (false,
     (match (retainedRequests s identifier windowSeconds now).min? with
      | some oldest => max 1 (oldest + windowSeconds - now)
      | none => windowSeconds),
     ⟨fun k => if k = identifier then retainedRequests s identifier windowSeconds now
        else (cleanupOldEntries s now).requests k,
      (cleanupOldEntries s now).lastCleanup⟩)
  else
    (true, 0,
     ⟨fun k => if k = identifier then retainedRequests s identifier windowSeconds now ++ [now]
        else (cleanupOldEntries s now).requests k,
      (cleanupOldEntries s now).lastCleanup⟩)

/-! ## Rate-limit middleware (`RateLimitMiddleware.dispatch`, wired up in
`main.py`) -/

/-- Python `path.startswith(pre)` on unicode strings. -/
def pathStartsWith (path pre : List Char) : Bool :=
  match path, pre with
  | _, [] => true
  | [], _ :: _ => false
  | c :: cs, p :: ps => c == p && pathStartsWith cs ps

/-- The `exempt_paths` list passed to `RateLimitMiddleware` in `main.py`. -/
def exempt_paths : List (List Char) :=
  ["/".data, "/docs".data, "/openapi.json".data, "/redoc".data]

/-- The exemption test of `RateLimitMiddleware.dispatch`:
`any(request.url.path.startswith(path) for path in self.exempt_paths)`. -/
def isExemptPath (paths : List (List Char)) (path : List Char) : Bool :=
  paths.any (fun p => pathStartsWith path p)

/-- Outcome of one middleware dispatch. -/
inductive DispatchOutcome where
  /-- The handler ran without any rate-limit admission check. -/
  | passthrough
  /-- The admission check ran and admitted the request; the handler ran. -/
  | handled
  /-- The admission check rejected the request; a 429 response carrying
  `retry_after` (both in the JSON body and the Retry-After header) was
  returned instead of running the handler. -/
  | rejected (retryAfter : ℤ)
  deriving DecidableEq, Repr

/-- `RateLimitMiddleware.dispatch`: skip the limiter entirely on exempt
paths, otherwise consult the global limiter with the configured
`calls`/`period` and either forward to the handler or answer 429. -/
def dispatch (paths : List (List Char)) (path : List Char) (identifier : String)
    (calls period : ℤ) (s : RateLimiterState) (now : ℤ) :
    DispatchOutcome × RateLimiterState :=
  if isExemptPath paths path then (DispatchOutcome.passthrough, s)
  else
    let r := isAllowed s identifier calls period now
    if r.1 then (DispatchOutcome.handled, r.2.2) else (DispatchOutcome.rejected r.2.1, r.2.2)

/-! ## Helper lemmas -/

/-- Filtering by a stronger strict lower bound absorbs a preceding filter by
a weaker one. -/
lemma filter_lt_filter_lt (l : List ℤ) (a b : ℤ) (h : b ≤ a) :
    (l.filter (fun ts => decide (b < ts))).filter (fun ts => decide (a < ts))
      = l.filter (fun ts => decide (a < ts)) := by
  induction l with
  | nil => rfl
  | cons x xs ih =>
    by_cases hb : b < x
    · by_cases ha : a < x
      · simp [List.filter_cons, hb, ha, ih]
      · simp [List.filter_cons, hb, ha, ih]
    · have ha : ¬ a < x := fun hx => hb (lt_of_le_of_lt h hx)
      simp [List.filter_cons, hb, ha, ih]

/-- For windows of at most one hour, the hourly global cleanup removes only
timestamps that the per-call window pruning would remove anyway, so the
retained list depends only on the pre-call timestamps. -/
lemma retainedRequests_eq_of_window_le (s : RateLimiterState) (identifier : String)
    (windowSeconds now : ℤ) (hW : windowSeconds ≤ 3600) :
    retainedRequests s identifier windowSeconds now
      = (s.requests identifier).filter (fun ts => decide (now - windowSeconds < ts)) := by
  unfold retainedRequests cleanupOldEntries
  split
  · rfl
  · exact filter_lt_filter_lt _ _ _ (by omega)

/-- Unfolding of `isAllowed` in the rejecting case. -/
lemma isAllowed_of_le (s : RateLimiterState) (identifier : String)
    (maxRequests windowSeconds now : ℤ)
    (h : maxRequests ≤ ((retainedRequests s identifier windowSeconds now).length : ℤ)) :
    isAllowed s identifier maxRequests windowSeconds now =
      (false,
       (match (retainedRequests s identifier windowSeconds now).min? with
        | some oldest => max 1 (oldest + windowSeconds - now)
        | none => windowSeconds),
       ⟨fun k => if k = identifier then retainedRequests s identifier windowSeconds now
          else (cleanupOldEntries s now).requests k,
        (cleanupOldEntries s now).lastCleanup⟩) := by
  unfold isAllowed
  rw [if_pos h]

/-- Unfolding of `isAllowed` in the admitting case. -/
lemma isAllowed_of_lt (s : RateLimiterState) (identifier : String)
    (maxRequests windowSeconds now : ℤ)
    (h : ¬ maxRequests ≤ ((retainedRequests s identifier windowSeconds now).length : ℤ)) :
    isAllowed s identifier maxRequests windowSeconds now =
      (true, 0,
       ⟨fun k => if k = identifier then retainedRequests s identifier windowSeconds now ++ [now]
          else (cleanupOldEntries s now).requests k,
        (cleanupOldEntries s now).lastCleanup⟩) := by
  unfold isAllowed
  rw [if_neg h]

/-- The truncated password encodes to an initial segment of the full
encoding: some suffix of bytes is dropped, never altered. -/
lemma utf8Encode_truncToBudget_append (p : List Char) (b : ℕ) :
    ∃ rest, utf8Encode p = utf8Encode (truncToBudget p b) ++ rest := by
  induction p generalizing b with
  | nil => exact ⟨[], rfl⟩
  | cons c cs ih =>
    by_cases h : (utf8Bytes c).length ≤ b
    · obtain ⟨r, hr⟩ := ih (b - (utf8Bytes c).length)
      exact ⟨r, by simp [truncToBudget, utf8Encode, h, hr]⟩
    · exact ⟨utf8Encode (c :: cs), by simp [truncToBudget, h, utf8Encode]⟩

/-- The truncated password encodes to at most `b` bytes. -/
lemma utf8Encode_truncToBudget_length_le (p : List Char) (b : ℕ) :
    (utf8Encode (truncToBudget p b)).length ≤ b := by
  induction p generalizing b with
  | nil => simp [truncToBudget, utf8Encode]
  | cons c cs ih =>
    by_cases h : (utf8Bytes c).length ≤ b
    · have := ih (b - (utf8Bytes c).length)
      simp only [truncToBudget, if_pos h, utf8Encode, List.length_append]
      omega
    · simp [truncToBudget, h, utf8Encode]

/-! ## Claim C1 -/

/-- C1, counterexample: the claim quantifies over every window `W`, but for
`W` longer than one hour the periodic cleanup inside `is_allowed` evicts
timestamps that are still inside the window. Here `N = 1`, `W = 7200`:
with no admitted timestamps on file (vacuously, `N - 1 = 0` timestamps lie
in the window), the first call at `t = 1000` is admitted, and the second
call at `t = 4600` — within the same `W` seconds, since `4600 < 1000 + W` —
is admitted again instead of being rejected, because the cleanup (last run
at `t = 600`) fires and drops the timestamp `1000` as one hour old. -/
theorem c1_counterexample_cleanup_defeats_quota :
    (4600 : ℤ) < 1000 + 7200 ∧
    (isAllowed ⟨fun _ => [], 600⟩ "c" 1 7200 1000).1 = true ∧
    (isAllowed ⟨fun _ => [], 600⟩ "c" 1 7200 1000).2.1 = 0 ∧
    (isAllowed (isAllowed ⟨fun _ => [], 600⟩ "c" 1 7200 1000).2.2 "c" 1 7200 4600).1
      = true := by
  decide

/-- C1 (amended): for every identifier, every `max_requests = N ≥ 1` and
every positive window `W` of at most one hour (so the hourly cleanup cannot
evict in-window timestamps): if the identifier has `N - 1` stored timestamps
inside the window at `t1`, the `N`-th call to `RateLimiter.is_allowed` at
`t1` is admitted and returns `(true, 0)`, and the `(N+1)`-th call at any
`t2` within the same `W` seconds (all `N` timestamps still in window) is
rejected with `retry_after ≥ 1`. -/
theorem c1_amended_nth_admitted_next_rejected
    (s : RateLimiterState) (id : String) (N W t1 t2 : ℤ)
    (hN : 1 ≤ N) (hW0 : 0 < W) (hW : W ≤ 3600)
    (hlen : (((s.requests id).filter (fun ts => decide (t1 - W < ts))).length : ℤ) + 1 = N)
    (ht12 : t1 ≤ t2) (hwin : t2 < t1 + W)
    (hin : ∀ ts ∈ (s.requests id).filter (fun ts => decide (t1 - W < ts)), t2 - W < ts) :
    (isAllowed s id N W t1).1 = true ∧ (isAllowed s id N W t1).2.1 = 0 ∧
    (isAllowed (isAllowed s id N W t1).2.2 id N W t2).1 = false ∧
    1 ≤ (isAllowed (isAllowed s id N W t1).2.2 id N W t2).2.1 := by
  have hret1 : retainedRequests s id W t1
      = (s.requests id).filter (fun ts => decide (t1 - W < ts)) :=
    retainedRequests_eq_of_window_le s id W t1 hW
  have hc1 : ¬ N ≤ ((retainedRequests s id W t1).length : ℤ) := by
    rw [hret1]; omega
  have h1 := isAllowed_of_lt s id N W t1 hc1
  refine ⟨by rw [h1], by rw [h1], ?_⟩
  set s1 : RateLimiterState :=
    ⟨fun k => if k = id then retainedRequests s id W t1 ++ [t1]
       else (cleanupOldEntries s t1).requests k,
     (cleanupOldEntries s t1).lastCleanup⟩ with hs1
  have hreq1 : s1.requests id = retainedRequests s id W t1 ++ [t1] := by
    rw [hs1]; exact if_pos rfl
  have hret2 : retainedRequests s1 id W t2
      = (s.requests id).filter (fun ts => decide (t1 - W < ts)) ++ [t1] := by
    rw [retainedRequests_eq_of_window_le s1 id W t2 hW, hreq1, hret1, List.filter_append]
    have hkeep : ((s.requests id).filter (fun ts => decide (t1 - W < ts))).filter
        (fun ts => decide (t2 - W < ts))
        = (s.requests id).filter (fun ts => decide (t1 - W < ts)) :=
      List.filter_eq_self.mpr (fun a ha => decide_eq_true (hin a ha))
    have hlast : List.filter (fun ts => decide (t2 - W < ts)) [t1] = [t1] := by
      have : t2 - W < t1 := by omega
      simp [List.filter, this]
    rw [hkeep, hlast]
  have hc2 : N ≤ ((retainedRequests s1 id W t2).length : ℤ) := by
    rw [hret2]
    simp only [List.length_append, List.length_singleton]
    push_cast
    omega
  have h2 := isAllowed_of_le s1 id N W t2 hc2
  obtain ⟨m, hm⟩ : ∃ m, (retainedRequests s1 id W t2).min? = some m := by
    cases hcase : (retainedRequests s1 id W t2).min? with
    | none =>
      exfalso
      have := List.min?_eq_none_iff.mp hcase
      rw [hret2] at this
      simp at this
    | some m => exact ⟨m, rfl⟩
  rw [h1]
  constructor
  · rw [h2]
  · rw [h2]
    simp only [hm]
    exact le_max_left 1 (m + W - t2)

/-- C1 witness: a concrete run of the amended theorem. One timestamp `100`
is on file for window `W = 60` and quota `N = 2`; the second call at
`t = 110` is admitted and the third at `t = 120` is rejected. -/
theorem c1_amended_witness :
    (isAllowed ⟨fun k => if k = "c" then [100] else [], 100⟩ "c" 2 60 110).1 = true ∧
    (isAllowed (isAllowed ⟨fun k => if k = "c" then [100] else [], 100⟩ "c" 2 60 110).2.2
      "c" 2 60 120).1 = false := by
  have h := c1_amended_nth_admitted_next_rejected
    ⟨fun k => if k = "c" then [100] else [], 100⟩ "c" 2 60 110 120
    (by decide) (by decide) (by decide) (by decide) (by decide) (by decide) (by decide)
  exact ⟨h.1, h.2.2.1⟩

/-! ## Claim C7 -/

/-- C7: on every rejected call to `RateLimiter.is_allowed` whose retained
timestamp list (the list stored for the identifier, post-pruning) is
non-empty with oldest element `oldest`, the returned `retry_after` is the
time until `oldest` exits the window, `oldest + window_seconds - now`,
floored at 1 second — hence `retry_after ≥ 1` on every such rejection. -/
theorem c7_retry_after_formula (s : RateLimiterState) (id : String)
    (maxRequests windowSeconds now oldest : ℤ)
    (hrej : (isAllowed s id maxRequests windowSeconds now).1 = false)
    (hmin : (((isAllowed s id maxRequests windowSeconds now).2.2.requests id).min?) = some oldest) :
    (isAllowed s id maxRequests windowSeconds now).2.1
        = max 1 (oldest + windowSeconds - now) ∧
    1 ≤ (isAllowed s id maxRequests windowSeconds now).2.1 := by
  by_cases hc : maxRequests ≤ ((retainedRequests s id windowSeconds now).length : ℤ)
  · have h := isAllowed_of_le s id maxRequests windowSeconds now hc
    rw [h] at hmin ⊢
    have hreq : (⟨fun k => if k = id then retainedRequests s id windowSeconds now
        else (cleanupOldEntries s now).requests k,
        (cleanupOldEntries s now).lastCleanup⟩ : RateLimiterState).requests id
        = retainedRequests s id windowSeconds now := if_pos rfl
    rw [hreq] at hmin
    constructor
    · simp only [hmin]
    · simp only [hmin]
      exact le_max_left 1 (oldest + windowSeconds - now)
  · rw [isAllowed_of_lt s id maxRequests windowSeconds now hc] at hrej
    simp at hrej

/-- C7 witness: identifier "c" holds timestamp `100`; with quota 1 and
window 60 a call at `t = 110` is rejected and `retry_after` is
`max 1 (100 + 60 - 110) = 50`. -/
theorem c7_retry_after_formula_witness :
    (isAllowed ⟨fun k => if k = "c" then [100] else [], 100⟩ "c" 1 60 110).2.1
        = max 1 ((100 : ℤ) + 60 - 110) ∧
    1 ≤ (isAllowed ⟨fun k => if k = "c" then [100] else [], 100⟩ "c" 1 60 110).2.1 :=
  c7_retry_after_formula ⟨fun k => if k = "c" then [100] else [], 100⟩ "c" 1 60 110 100
    (by decide) (by decide)

/-! ## Claim C8 -/

/-- C8, counterexample: a rejected call does not append — but the claim
also asserts that only stale entries (older than `now - window_seconds`)
are removed, and that fails when the window exceeds one hour and the
periodic cleanup fires. Identifier "c" holds timestamps `900` and `4500`;
with `W = 7200` neither is stale at `now = 4600`, yet the call (rejected,
quota 1) drops `900` because the cleanup, last run at `t = 4200`, fires and
removes it as one hour old. -/
theorem c8_counterexample_cleanup_removes_fresh :
    (isAllowed ⟨fun k => if k = "c" then [900, 4500] else [], 4200⟩ "c" 1 7200 4600).1
        = false ∧
    (isAllowed ⟨fun k => if k = "c" then [900, 4500] else [], 4200⟩ "c" 1 7200 4600).2.2.requests "c"
        ≠ (([900, 4500] : List ℤ).filter (fun ts => decide ((4600 : ℤ) - 7200 < ts))) := by
  decide

/-- C8 (amended): for windows of at most one hour (so the hourly cleanup
removes only already-stale entries), a rejected call to
`RateLimiter.is_allowed` never appends a timestamp: after a call returning
`(false, _)`, the identifier's stored sequence is exactly its pre-call
sequence with the stale entries (those `≤ now - window_seconds`) removed. -/
theorem c8_amended_reject_prunes_only (s : RateLimiterState) (id : String)
    (maxRequests windowSeconds now : ℤ) (hW : windowSeconds ≤ 3600)
    (hrej : (isAllowed s id maxRequests windowSeconds now).1 = false) :
    (isAllowed s id maxRequests windowSeconds now).2.2.requests id
      = (s.requests id).filter (fun ts => decide (now - windowSeconds < ts)) := by
  by_cases hc : maxRequests ≤ ((retainedRequests s id windowSeconds now).length : ℤ)
  · rw [isAllowed_of_le s id maxRequests windowSeconds now hc]
    have hreq : (⟨fun k => if k = id then retainedRequests s id windowSeconds now
        else (cleanupOldEntries s now).requests k,
        (cleanupOldEntries s now).lastCleanup⟩ : RateLimiterState).requests id
        = retainedRequests s id windowSeconds now := if_pos rfl
    rw [hreq]
    exact retainedRequests_eq_of_window_le s id windowSeconds now hW
  · rw [isAllowed_of_lt s id maxRequests windowSeconds now hc] at hrej
    simp at hrej

/-- C8 witness: the rejected call of the C7 scenario (window 60 ≤ 3600)
leaves the stored sequence equal to the pruned pre-call sequence. -/
theorem c8_amended_reject_prunes_only_witness :
    (isAllowed ⟨fun k => if k = "c" then [100] else [], 100⟩ "c" 1 60 110).2.2.requests "c"
      = (([100] : List ℤ).filter (fun ts => decide ((110 : ℤ) - 60 < ts))) :=
  c8_amended_reject_prunes_only ⟨fun k => if k = "c" then [100] else [], 100⟩ "c" 1 60 110
    (by decide) (by decide)

/-! ## Claim C10 -/

/-- C10: after every call to `RateLimiter.is_allowed` with a positive
window, every timestamp retained for the identifier is strictly newer than
`now - window_seconds`, and after an admitting call the stored sequence is
non-empty with `now` as its last element. -/
theorem c10_post_call_invariant (s : RateLimiterState) (id : String)
    (maxRequests windowSeconds now : ℤ) (hW0 : 0 < windowSeconds) :
    (∀ ts ∈ (isAllowed s id maxRequests windowSeconds now).2.2.requests id,
      now - windowSeconds < ts) ∧
    ((isAllowed s id maxRequests windowSeconds now).1 = true →
      (isAllowed s id maxRequests windowSeconds now).2.2.requests id ≠ [] ∧
      ((isAllowed s id maxRequests windowSeconds now).2.2.requests id).getLast?
        = some now) := by
  by_cases hc : maxRequests ≤ ((retainedRequests s id windowSeconds now).length : ℤ)
  · rw [isAllowed_of_le s id maxRequests windowSeconds now hc]
    have hreq : (⟨fun k => if k = id then retainedRequests s id windowSeconds now
        else (cleanupOldEntries s now).requests k,
        (cleanupOldEntries s now).lastCleanup⟩ : RateLimiterState).requests id
        = retainedRequests s id windowSeconds now := if_pos rfl
    rw [hreq]
    constructor
    · intro ts hts
      exact of_decide_eq_true (List.mem_filter.mp hts).2
    · intro h
      simp at h
  · rw [isAllowed_of_lt s id maxRequests windowSeconds now hc]
    have hreq : (⟨fun k => if k = id then retainedRequests s id windowSeconds now ++ [now]
        else (cleanupOldEntries s now).requests k,
        (cleanupOldEntries s now).lastCleanup⟩ : RateLimiterState).requests id
        = retainedRequests s id windowSeconds now ++ [now] := if_pos rfl
    rw [hreq]
    refine ⟨?_, fun _ => ⟨by simp, List.getLast?_concat _⟩⟩
    intro ts hts
    rcases List.mem_append.mp hts with hmem | hmem
    · exact of_decide_eq_true (List.mem_filter.mp hmem).2
    · have : ts = now := List.mem_singleton.mp hmem
      omega

/-- C10 witness: an admitting call at `t = 10` with window 60 leaves the
sequence ending in `10`. -/
theorem c10_post_call_invariant_witness :
    ((isAllowed ⟨fun _ => [], 0⟩ "c" 1 60 10).2.2.requests "c").getLast? = some 10 :=
  ((c10_post_call_invariant ⟨fun _ => [], 0⟩ "c" 1 60 10 (by decide)).2 (by decide)).2

/-! ## Claim C2 -/

/-- C2, code-bug evidence: because `exempt_paths` contains `"/"` and the
exemption test uses `startswith`, every request path beginning with `"/"`
— that is, every well-formed HTTP path, not just the configured
health/docs paths — bypasses the middleware: `dispatch` forwards to the
handler without performing any rate-limit admission check and without
touching the limiter state. -/
theorem c2_middleware_exempts_every_path (path : List Char) (identifier : String)
    (calls period : ℤ) (s : RateLimiterState) (now : ℤ)
    (h : pathStartsWith path "/".data = true) :
    dispatch exempt_paths path identifier calls period s now
      = (DispatchOutcome.passthrough, s) := by
  have hex : isExemptPath exempt_paths path = true := by
    simp [isExemptPath, exempt_paths, h]
  unfold dispatch
  rw [hex]
  simp

/-- C2 witness: the non-exempt-intended path `/api/users/me` (the claim's
own example) is dispatched with no admission check. -/
theorem c2_middleware_exempts_every_path_witness :
    dispatch exempt_paths "/api/users/me".data "203.0.113.7:agent" 100 60 ⟨fun _ => [], 0⟩ 0
      = (DispatchOutcome.passthrough, ⟨fun _ => [], 0⟩) :=
  c2_middleware_exempts_every_path "/api/users/me".data "203.0.113.7:agent" 100 60
    ⟨fun _ => [], 0⟩ 0 (by decide)

/-! ## Claim C3 -/

/-- C3, counterexample: a well-signed, unexpired token whose decoded claim
set carries the empty-string subject is accepted by the token-decoding step
of `get_current_user` — the code only rejects an absent (`None`) subject,
so verification does not signal `AuthenticationError` here as the claim
requires. -/
theorem c3_counterexample_empty_subject_accepted :
    tokenDecodeStep (create_access_token ⟨some "", some "rider", some "u"⟩ 0 60 "k") "k" 0
      = Except.ok "" := by
  decide

/-- C3 (amended): the token-decoding step of `get_current_user` signals
`AuthenticationError` exactly when the successfully decoded claim set has
no subject at all; any present subject — the empty string included — passes
the decoding step and is returned. -/
theorem c3_amended_decode_rejects_only_missing_subject
    (t : Jwt) (secret : String) (now : ℤ) (p : JwtPayload)
    (hdec : jwtDecode t secret now = some p) :
    (p.claims.sub = none →
      tokenDecodeStep t secret now
        = Except.error ⟨"Could not validate credentials", "Invalid token format"⟩) ∧
    (∀ e, p.claims.sub = some e → tokenDecodeStep t secret now = Except.ok e) := by
  unfold tokenDecodeStep
  rw [hdec]
  dsimp only
  exact ⟨fun h => by rw [h], fun e h => by rw [h]⟩

/-- C3 witness: a token signed with the right secret and no subject claim
is rejected at the decoding step with the invalid-format error. -/
theorem c3_amended_decode_rejects_only_missing_subject_witness :
    tokenDecodeStep (signToken "k" ⟨⟨none, none, none⟩, 10⟩) "k" 0
      = Except.error ⟨"Could not validate credentials", "Invalid token format"⟩ :=
  (c3_amended_decode_rejects_only_missing_subject (signToken "k" ⟨⟨none, none, none⟩, 10⟩)
    "k" 0 ⟨⟨none, none, none⟩, 10⟩ (by decide)).1 rfl

/-! ## Claim C5 -/

/-- C5: issuing a token over the claim set `{sub, role, uuid}` and decoding
it immediately (same secret, same instant) yields exactly those claims plus
an expiry equal to the issue instant plus the configured duration in
minutes, and that expiry lies strictly in the future whenever the
configured duration is positive (default 60 minutes). -/
theorem c5_issue_verify_roundtrip (sub role uuid secret : String)
    (now expireMinutes : ℤ) (hm : 0 < expireMinutes) :
    jwtDecode (create_access_token ⟨some sub, some role, some uuid⟩ now expireMinutes secret)
        secret now
      = some ⟨⟨some sub, some role, some uuid⟩, now + expireMinutes * 60⟩ ∧
    now < now + expireMinutes * 60 := by
  constructor
  · unfold create_access_token signToken jwtDecode
    rw [if_pos]
    exact ⟨rfl, by simp; omega⟩
  · omega

/-- C5 witness: the round-trip at the default 60-minute lifetime. -/
theorem c5_issue_verify_roundtrip_witness :
    jwtDecode (create_access_token ⟨some "alice@x.io", some "rider", some "u1"⟩ 1000 60 "k")
        "k" 1000
      = some ⟨⟨some "alice@x.io", some "rider", some "u1"⟩, 1000 + 60 * 60⟩ ∧
    (1000 : ℤ) < 1000 + 60 * 60 :=
  c5_issue_verify_roundtrip "alice@x.io" "rider" "u1" "k" 1000 60 (by decide)

/-! ## Claim C6 -/

/-- C6: login with an email that is not on file and login with an email
that is on file but a wrong password produce the very same
`AuthenticationError` value — same error kind, same caller-visible message
and detail — so the error does not reveal whether the email exists. -/
theorem c6_login_uniform_error
    (db1 : List DbUser) (e1 : String) (p1 : List Char)
    (db2 : List DbUser) (e2 : String) (p2 : List Char) (u : DbUser)
    (now1 m1 now2 m2 : ℤ) (sec1 sec2 : String)
    (h1 : findOne db1 e1 = none)
    (h2 : findOne db2 e2 = some u)
    (hpw : verify_password p2 u.hashed_password = false) :
    login db1 e1 p1 now1 m1 sec1
        = Except.error ⟨"Incorrect email or password", "Invalid credentials provided"⟩ ∧
    login db2 e2 p2 now2 m2 sec2
        = Except.error ⟨"Incorrect email or password", "Invalid credentials provided"⟩ := by
  constructor
  · unfold login
    rw [h1]
  · unfold login
    rw [h2]
    simp [hpw]

/-- C6 witness: an empty collection versus a collection holding user "y"
with a digest the password `"a"` fails against; both logins yield the same
error value. -/
theorem c6_login_uniform_error_witness :
    login [] "x" ['a'] 0 60 "k"
        = Except.error ⟨"Incorrect email or password", "Invalid credentials provided"⟩ ∧
    login [⟨"y", ⟨0, []⟩, true, false, "rider", "u"⟩] "y" ['a'] 0 60 "k"
        = Except.error ⟨"Incorrect email or password", "Invalid credentials provided"⟩ :=
  c6_login_uniform_error [] "x" ['a']
    [⟨"y", ⟨0, []⟩, true, false, "rider", "u"⟩] "y" ['a']
    ⟨"y", ⟨0, []⟩, true, false, "rider", "u"⟩ 0 60 0 60 "k" "k"
    (by decide) (by decide) (by decide)

/-! ## Claim C9 -/

/-- C9: registration with an email that matches an existing record signals
`ConflictError` — with the duplicate-email message — and returns the users
collection unchanged: no insert happens, no second record is created. -/
theorem c9_register_conflict_no_write (db : List DbUser) (inp : UserCreate)
    (uuid : String) (salt : Nat) (u : DbUser)
    (h : findOne db inp.email = some u) :
    register db inp uuid salt
      = (Except.error (RegisterError.conflict "User with this email already exists"
          "A user with this email address is already registered"), db) := by
  unfold register
  rw [h]

/-- C9 witness: re-registering the email "y" against a collection already
holding it yields the conflict error and the unchanged collection. -/
theorem c9_register_conflict_no_write_witness :
    register [⟨"y", ⟨0, []⟩, true, false, "rider", "u"⟩] ⟨"y", ['a']⟩ "u2" 1
      = (Except.error (RegisterError.conflict "User with this email already exists"
          "A user with this email address is already registered"),
         [⟨"y", ⟨0, []⟩, true, false, "rider", "u"⟩]) :=
  c9_register_conflict_no_write [⟨"y", ⟨0, []⟩, true, false, "rider", "u"⟩] ⟨"y", ['a']⟩
    "u2" 1 ⟨"y", ⟨0, []⟩, true, false, "rider", "u"⟩ (by decide)

/-! ## Claim C4 -/

/-- C4, counterexample: when the 72-byte boundary splits a multi-byte
character, `hash_password` keeps only 71 bytes (the trailing incomplete
sequence is dropped by `decode(errors="ignore")`) — not "exactly 72 bytes"
— and the resulting digest fails to verify even against the original
password, because `verify_password` feeds bcrypt the untruncated encoding,
of which bcrypt uses the first 72 bytes. Witness passwords: `P` is 71 times
`'a'` followed by `'£'` (a two-byte character, 73 bytes in all) and `P'`
is `P` followed by `'x'`; they agree on their first 72 encoded bytes and
differ afterwards, yet `P`'s digest does not verify against `P`. -/
theorem c4_counterexample_split_multibyte_boundary :
    (utf8Encode (List.replicate 71 'a' ++ ['£', 'x'])).take 72
        = (utf8Encode (List.replicate 71 'a' ++ ['£'])).take 72 ∧
    utf8Encode (List.replicate 71 'a' ++ ['£', 'x'])
        ≠ utf8Encode (List.replicate 71 'a' ++ ['£']) ∧
    hash_password (List.replicate 71 'a' ++ ['£']) 0
        = Except.ok ⟨0, List.replicate 71 97⟩ ∧
    (utf8Encode (List.replicate 71 'a' ++ ['£'])).length = 73 ∧
    verify_password (List.replicate 71 'a' ++ ['£']) ⟨0, List.replicate 71 97⟩ = false := by
  decide

/-- C4 (amended): `hash_password` truncates an over-long password to at
most 72 UTF-8 bytes, dropping a trailing incomplete multi-byte sequence and
never producing decoding errors. When the 72-byte cut falls on a character
boundary (the truncated encoding is exactly 72 bytes), the documented
collision holds: for any two passwords that agree on their first 72 encoded
bytes, the digest hashed from the over-long one verifies against both. -/
theorem c4_amended_aligned_truncation_collision
    (p q : List Char) (salt : Nat) (d : BcryptDigest)
    (hlong : 72 < (utf8Encode p).length)
    (haligned : (utf8Encode (truncToBudget p 72)).length = 72)
    (hagree : (utf8Encode q).take 72 = (utf8Encode p).take 72)
    (hd : hash_password p salt = Except.ok d) :
    verify_password p d = true ∧ verify_password q d = true := by
  have hp : p ≠ [] := by
    intro h
    rw [h] at hlong
    simp [utf8Encode] at hlong
  have hE : utf8Encode (truncToBudget p 72) = (utf8Encode p).take 72 := by
    obtain ⟨rest, hr⟩ := utf8Encode_truncToBudget_append p 72
    rw [hr]
    nth_rewrite 2 [← haligned]
    exact (List.take_left _ _).symm
  have hkey : d = ⟨salt, (utf8Encode p).take 72⟩ := by
    unfold hash_password at hd
    rw [if_neg hp] at hd
    simp only [if_pos hlong, bcryptHashpw] at hd
    have := Except.ok.inj hd
    rw [← this, hE]
    have h72 : ((utf8Encode p).take 72).length ≤ 72 := by
      simp [List.length_take]
    rw [List.take_of_length_le h72]
  constructor
  · simp [verify_password, bcryptCheckpw, hkey]
  · simp [verify_password, bcryptCheckpw, hkey, hagree]

/-- C4 witness: 72 times `'a'` followed by `'b'` truncates cleanly to
exactly 72 bytes, and the digest verifies against that password and
against 72 times `'a'` followed by `'c'`. -/
theorem c4_amended_aligned_truncation_collision_witness :
    verify_password (List.replicate 72 'a' ++ ['b']) ⟨0, List.replicate 72 97⟩ = true ∧
    verify_password (List.replicate 72 'a' ++ ['c']) ⟨0, List.replicate 72 97⟩ = true :=
  c4_amended_aligned_truncation_collision
    (List.replicate 72 'a' ++ ['b']) (List.replicate 72 'a' ++ ['c']) 0
    ⟨0, List.replicate 72 97⟩ (by decide) (by decide) (by decide) (by decide)

end Bikerly
